import Mathlib

/-!
Shallow embedding of the Collevento server (server.ts): the data model
(users, students, organizers, events, bookings, tickets, attendance) and the
route handlers relevant to the booking / ticket / attendance workflow:
POST /api/bookings, POST /api/organizer/scan, GET /api/organizer/stats and
POST /api/auth/guest.  Database tables are lists of records, Prisma id
generation is modeled by a per-database fresh-id counter rendered as a
decimal string, and strings are modeled as lists of character code points.
-/

namespace Collevento

/-- Strings modeled as lists of character code points. -/
abbrev Str := List Nat

/-- Little-endian base-10 digits of `n`, with explicit structural fuel
(`fuel ≥ n` suffices for correctness). -/
def digitsRev : Nat → Nat → List Nat
  | 0, _ => []
  | fuel + 1, n => if n = 0 then [] else n % 10 :: digitsRev fuel (n / 10)

/-- Value of a little-endian digit list. -/
def digitsVal : List Nat → Nat
  | [] => 0
  | d :: ds => d + 10 * digitsVal ds

/-- Character codes of the decimal numeral of `n`, as produced by JS template
interpolation of a number (most significant digit first, `0` rendered as the
single digit zero, code 48). -/
def natChars (n : Nat) : Str :=
  if n = 0 then [48] else ((digitsRev n n).map (fun d => 48 + d)).reverse

/-- Model of Prisma record-id generation: the n-th id ever handed out by the
database is the decimal numeral of n.  (The actual generator is an opaque
unique token; what the server relies on is only uniqueness.) -/
def freshId (n : Nat) : Str := natChars n

/-! ## Data model (the Prisma schema records used by the handlers) -/

/-- User roles, the closed set of values of the role column. -/
inductive Role where
  | ADMIN
  | ORGANIZER
  | STUDENT
  | GUEST
deriving DecidableEq

structure User where
  id : Str
  role : Role
deriving DecidableEq

structure Student where
  id : Str
  userId : Str
deriving DecidableEq

structure Organizer where
  id : Str
  userId : Str
  isApproved : Bool
deriving DecidableEq

structure Event where
  id : Str
  organizerId : Str
  capacity : Nat
  price : Nat
  status : Str
deriving DecidableEq

structure Booking where
  id : Str
  studentId : Str
  eventId : Str
  status : Str
deriving DecidableEq

structure Ticket where
  id : Str
  bookingId : Str
  qrCode : Str
  isScanned : Bool
  scannedAt : Option Nat
deriving DecidableEq

structure Attendance where
  id : Str
  studentId : Str
  eventId : Str
deriving DecidableEq

/-- The persistent store: one list per table, plus the fresh-id counter that
models Prisma id generation. -/
structure DB where
  users : List User
  students : List Student
  organizers : List Organizer
  events : List Event
  bookings : List Booking
  tickets : List Ticket
  attendances : List Attendance
  nextId : Nat
deriving DecidableEq

/-- The character codes of the literal TICKET- (including the dash, 45). -/
def ticketTag : Str := [84, 73, 67, 75, 69, 84, 45]

/-- The status string PAID. -/
def strPAID : Str := [80, 65, 73, 68]

/-- The status string PENDING. -/
def strPENDING : Str := [80, 69, 78, 68, 73, 78, 71]

/-- The ticket code minted at booking time, the handler's template literal:
TICKET- followed by the booking id, a dash, and the decimal rendering of
Date.now(). -/
def mkQrCode (bookingId : Str) (now : Nat) : Str :=
  ticketTag ++ bookingId ++ 45 :: natChars now

deriving instance DecidableEq for Except

/-! ## Table lookups (prisma findUnique / findFirst on unique columns) -/

def findTicket (db : DB) (tid : Str) : Option Ticket :=
  db.tickets.find? (fun t => t.id == tid)

def findBooking (db : DB) (bid : Str) : Option Booking :=
  db.bookings.find? (fun b => b.id == bid)

def findStudentById (db : DB) (sid : Str) : Option Student :=
  db.students.find? (fun s => s.id == sid)

def findStudentByUser (db : DB) (uid : Str) : Option Student :=
  db.students.find? (fun s => s.userId == uid)

def findOrganizerByUser (db : DB) (uid : Str) : Option Organizer :=
  db.organizers.find? (fun o => o.userId == uid)

/-! ## POST /api/organizer/scan (server.ts lines 129–156)

The handler rejects non-organizer callers, loads the ticket by the ticketId
of the request body via findUnique with the booking and its student included
(required relations), rejects a missing ticket with 404 and an already
scanned ticket with 400, then — in two further independent prisma calls —
sets the scanned flag and timestamp and appends one Attendance row keyed by
the booking's studentId and eventId, returning the booking's student. -/

inductive ScanResult where
  /-- 403: the caller's role is not ORGANIZER. -/
  | forbidden
  /-- 404: no ticket row has the requested id. -/
  | ticketNotFound
  /-- A required include failed to resolve; impossible under referential
  integrity of the store, where the relation columns are foreign keys. -/
  | relationError
  /-- 400: the ticket was already scanned. -/
  | alreadyScanned
  /-- 200: success true, with the booking's student. -/
  | success (student : Student)
deriving DecidableEq

/-- The ticket lookup of the scan handler: findUnique on the ticket id with
the booking and the booking's student included. -/
def scanJoin (db : DB) (tid : Str) : Option (Ticket × Booking × Student) :=
  match findTicket db tid with
  | none => none
  | some t =>
    match findBooking db t.bookingId with
    | none => none
    | some b =>
      match findStudentById db b.studentId with
      | none => none
      | some s => some (t, b, s)

/-- The read phase of the scan handler: the role gate, the joined ticket
lookup, and the two validation branches, before any write is issued. -/
def scanCheck (db : DB) (callerRole : Role) (tid : Str) :
    Except ScanResult (Ticket × Booking × Student) :=
  if callerRole ≠ Role.ORGANIZER then .error .forbidden
  else
    match findTicket db tid with
    | none => .error .ticketNotFound
    | some t =>
      match findBooking db t.bookingId with
      | none => .error .relationError
      | some b =>
        match findStudentById db b.studentId with
        | none => .error .relationError
        | some s =>
          if t.isScanned then .error .alreadyScanned
          else .ok (t, b, s)

/-- The write phase of the scan handler: prisma.ticket.update on the request
ticketId setting isScanned and scannedAt, then prisma.attendance.create with
the booking's studentId and eventId. -/
def scanWrites (db : DB) (tid : Str) (b : Booking) (now : Nat) : DB :=
  let db1 :=
    { db with
        tickets := db.tickets.map (fun u : Ticket =>
          if u.id == tid then { u with isScanned := true, scannedAt := some now } else u) }
  { db1 with
      attendances := db1.attendances ++
        [{ id := freshId db1.nextId, studentId := b.studentId, eventId := b.eventId }],
      nextId := db1.nextId + 1 }

/-- The scan handler, run to completion in isolation: check phase, then (on
success) the two writes. -/
def scanTicket (db : DB) (callerRole : Role) (tid : Str) (now : Nat) :
    ScanResult × DB :=
  match scanCheck db callerRole tid with
  | .error e => (e, db)
  | .ok (_, b, s) => (.success s, scanWrites db tid b now)

/-! ## POST /api/bookings (server.ts lines 263–285)

The handler resolves the caller's student profile (400 if absent), then
issues two independent awaited prisma calls: booking.create with status PAID
and eventId taken from the request body with no validation, then
ticket.create with the minted qr code.  There is no transaction around the
two inserts: if the second one fails, the first remains committed. -/

inductive BookingError where
  /-- 400: the caller has no Student profile. -/
  | notAStudent
  /-- The ticket.create insert failed after booking.create committed. -/
  | ticketInsertFailed
deriving DecidableEq

/-- The booking handler with the outcome of the ticket.create insert made
explicit: ticketCreateOk = false models a failure of the second prisma call
(the handler has no transaction or compensating delete around the pair). -/
def createBookingFallible (db : DB) (callerUserId eventId : Str) (now : Nat)
    (ticketCreateOk : Bool) : Except BookingError (Booking × Ticket) × DB :=
  match findStudentByUser db callerUserId with
  | none => (.error .notAStudent, db)
  | some st =>
    let b : Booking :=
      { id := freshId db.nextId, studentId := st.id, eventId := eventId, status := strPAID }
    let db1 := { db with bookings := db.bookings ++ [b], nextId := db.nextId + 1 }
    if ticketCreateOk then
      let t : Ticket :=
        { id := freshId db1.nextId, bookingId := b.id, qrCode := mkQrCode b.id now,
          isScanned := false, scannedAt := none }
      (.ok (b, t), { db1 with tickets := db1.tickets ++ [t], nextId := db1.nextId + 1 })
    else
      (.error .ticketInsertFailed, db1)

/-- The booking handler on the path where both inserts succeed. -/
def createBooking (db : DB) (callerUserId eventId : Str) (now : Nat) :
    Except BookingError (Booking × Ticket) × DB :=
  createBookingFallible db callerUserId eventId now true

/-! ## POST /api/events (server.ts lines 247–260) -/

/-- The event-creation handler: organizer role gate, approved-organizer gate,
then event.create with status PENDING. -/
def createEvent (db : DB) (callerRole : Role) (callerUserId : Str)
    (capacity price : Nat) : Option Event × DB :=
  if callerRole ≠ Role.ORGANIZER then (none, db)
  else
    match findOrganizerByUser db callerUserId with
    | none => (none, db)
    | some org =>
      if !org.isApproved then (none, db)
      else
        let e : Event :=
          { id := freshId db.nextId, organizerId := org.id, capacity := capacity,
            price := price, status := strPENDING }
        (some e, { db with events := db.events ++ [e], nextId := db.nextId + 1 })

/-! ## POST /api/auth/guest (server.ts lines 184–190)

The handler never reads the request body: it creates a user with role GUEST
and signs a token over the created user's id and role. -/

/-- The payload of the signed token: jwt.sign with id and role. -/
structure TokenPayload where
  id : Str
  role : Role
deriving DecidableEq

/-- The request body the client may send to the guest route (the client does
send a role field); the handler ignores it entirely. -/
structure GuestReq where
  role : Option Role
deriving DecidableEq

def authGuest (db : DB) (_req : GuestReq) : (TokenPayload × User) × DB :=
  let u : User := { id := freshId db.nextId, role := .GUEST }
  (({ id := u.id, role := u.role }, u),
   { db with users := db.users ++ [u], nextId := db.nextId + 1 })

/-! ## GET /api/organizer/stats (server.ts lines 288–304) -/

structure Stats where
  totalEvents : Nat
  totalRegistrations : Nat
  totalRevenue : Nat
  attendanceRate : ℚ
deriving DecidableEq

/-- The stats handler: resolve the caller's organizer profile (403 if
absent), collect that organizer's events, the bookings and attendance rows
whose eventId is among those events, and compute the four aggregates; the
rate divides in the rationals, with the zero-bookings guard of the source. -/
def getOrganizerStats (db : DB) (callerUserId : Str) : Option Stats :=
  (findOrganizerByUser db callerUserId).map fun org =>
    let events := db.events.filter (fun e => e.organizerId == org.id)
    let eventIds := events.map (fun e => e.id)
    let bookings := db.bookings.filter (fun b => eventIds.contains b.eventId)
    let attendance := db.attendances.filter (fun a => eventIds.contains a.eventId)
    { totalEvents := events.length
      totalRegistrations := bookings.length
      totalRevenue := bookings.foldl (fun acc _ => acc + 100) 0
      attendanceRate :=
        if bookings.length > 0 then ((attendance.length : ℚ) / (bookings.length : ℚ)) * 100
        else 0 }

/-! ## System runs and the reachable-state invariant

A run of the system starts from a state as left by the seed script (no
bookings, tickets or attendance rows) and applies the API operations that
touch the booking workflow tables.  The structural invariant WF below is
maintained by every operation and yields the exactly-once accounting facts
of the specification. -/

/-- The attendance table projected to its (studentId, eventId) keys. -/
def attendPairs (db : DB) : List (Str × Str) :=
  db.attendances.map (fun a => (a.studentId, a.eventId))

/-- The (studentId, eventId) key a scanned ticket contributes, through its
booking; none for an unscanned ticket. -/
def resolvePair (bookings : List Booking) (t : Ticket) : Option (Str × Str) :=
  if t.isScanned then
    (bookings.find? (fun b => b.id == t.bookingId)).map (fun b => (b.studentId, b.eventId))
  else none

/-- The (studentId, eventId) keys of all scanned tickets. -/
def scannedPairs (db : DB) : List (Str × Str) :=
  db.tickets.filterMap (resolvePair db.bookings)

/-- Structural invariant of the booking workflow tables, maintained by every
API operation. -/
structure WF (db : DB) : Prop where
  bookFresh : ∀ b ∈ db.bookings, ∃ n < db.nextId, b.id = freshId n
  bookNodup : (db.bookings.map (fun b => b.id)).Nodup
  tickFresh : ∀ t ∈ db.tickets, ∃ n < db.nextId, t.id = freshId n
  tickNodup : (db.tickets.map (fun t => t.id)).Nodup
  tickBookFresh : ∀ t ∈ db.tickets, ∃ n < db.nextId, t.bookingId = freshId n
  tickBookNodup : (db.tickets.map (fun t => t.bookingId)).Nodup
  tickQr : ∀ t ∈ db.tickets, ∃ ts, t.qrCode = mkQrCode t.bookingId ts
  tickResolves : ∀ t ∈ db.tickets, (findBooking db t.bookingId).isSome
  oneTicket : ∀ b ∈ db.bookings,
    (db.tickets.filter (fun t => t.bookingId == b.id)).length = 1
  pairsPerm : List.Perm (attendPairs db) (scannedPairs db)

/-- A state as left by the seed script: the booking workflow tables are
empty (seed.ts deletes every row and re-creates only users, profiles and
events). -/
def Seeded (db : DB) : Prop :=
  db.bookings = [] ∧ db.tickets = [] ∧ db.attendances = []

/-! ## System runs -/

/-- One API call against the store: the four operations that can touch the
booking workflow tables (every other route only reads them or writes other
tables). -/
inductive Step : DB → DB → Prop where
  | book (db : DB) (uid eid : Str) (now : Nat) :
      Step db (createBooking db uid eid now).2
  | scan (db : DB) (r : Role) (tid : Str) (now : Nat) :
      Step db (scanTicket db r tid now).2
  | event (db : DB) (r : Role) (uid : Str) (cap price : Nat) :
      Step db (createEvent db r uid cap price).2
  | guest (db : DB) (req : GuestReq) :
      Step db (authGuest db req).2

/-- States reachable from a given initial state by API calls. -/
inductive Reachable (db0 : DB) : DB → Prop where
  | refl : Reachable db0 db0
  | step {db db' : DB} : Reachable db0 db → Step db db' → Reachable db0 db'

/-! ## Attendance is bounded by bookings

Under the structural invariant, for any set of event ids the number of
attendance rows is at most the number of bookings: every attendance row is
accounted for by a distinct scanned ticket, every ticket by a distinct
booking. -/

/-- The booking a ticket contributes for the event filter es: its resolved
booking when the ticket is scanned and the booking's event is in es. -/
def scannedBookingFor (bookings : List Booking) (es : List Str) (t : Ticket) :
    Option Booking :=
  if t.isScanned then
    (bookings.find? (fun y => y.id == t.bookingId)).bind
      (fun b => if es.contains b.eventId then some b else none)
  else none

/-! ## Two concurrent scans of the same ticket

The handler performs its findUnique check and its two writes as separate
awaited prisma calls with no transaction and no conditional update, so the
event loop may interleave two requests on the same ticket with both checks
running before either write.  This function executes that interleaving. -/

def twoScansBothCheckFirst (db : DB) (r1 r2 : Role) (tid : Str) (now1 now2 : Nat) :
    ScanResult × ScanResult × DB :=
  match scanCheck db r1 tid, scanCheck db r2 tid with
  | .ok (_, b1, s1), .ok (_, b2, s2) =>
    (.success s1, .success s2, scanWrites (scanWrites db tid b1 now1) tid b2 now2)
  | .ok (_, b1, s1), .error e2 => (.success s1, e2, scanWrites db tid b1 now1)
  | .error e1, .ok (_, b2, s2) => (e1, .success s2, scanWrites db tid b2 now2)
  | .error e1, .error e2 => (e1, e2, db)

/-! ## Concrete fixtures used to instantiate the theorems -/

/-- A student whose user id is the string 2. -/
def sampleStudent : Student := ⟨[1], [2]⟩

/-- An approved organizer whose user id is the string 7. -/
def sampleOrganizer : Organizer := ⟨[6], [7], true⟩

/-- An event of capacity 0 owned by the sample organizer. -/
def sampleEvent : Event := ⟨[4], [6], 0, 100, strPENDING⟩

/-- A booking of the sample student for the sample event. -/
def sampleBooking : Booking := ⟨[3], [1], [4], strPAID⟩

/-- The sample booking's unscanned ticket. -/
def sampleTicket : Ticket := ⟨[5], [3], [9], false, none⟩

/-- A store holding the sample records with one unscanned ticket. -/
def sampleDB : DB :=
  ⟨[], [sampleStudent], [sampleOrganizer], [sampleEvent], [sampleBooking],
    [sampleTicket], [], 8⟩

/-- A store as the seed script leaves it: profiles and an event, no
bookings, tickets or attendance. -/
def dbSeeded : DB :=
  ⟨[], [sampleStudent], [sampleOrganizer], [sampleEvent], [], [], [], 8⟩

/-- The booking minted by a booking call against dbSeeded. -/
def bW : Booking := ⟨freshId 8, [1], [4], strPAID⟩

/-- The ticket minted by the same call: its id is the next fresh id, not its
qr code. -/
def tW : Ticket := ⟨freshId 9, freshId 8, mkQrCode (freshId 8) 5, false, none⟩

/-- The store after that booking call. -/
def db9 : DB := (createBooking dbSeeded [2] [4] 5).2

/-- The event ids of an organizer's events, as the stats handler collects
them. -/
def orgEventIds (db : DB) (org : Organizer) : List Str :=
  (db.events.filter (fun e => e.organizerId == org.id)).map (fun e => e.id)

/-- The stats handler's count of bookings against an organizer's events. -/
def orgBookingCount (db : DB) (org : Organizer) : Nat :=
  (db.bookings.filter (fun b => (orgEventIds db org).contains b.eventId)).length

/-- The stats handler's count of attendance rows against an organizer's
events. -/
def orgAttendCount (db : DB) (org : Organizer) : Nat :=
  (db.attendances.filter (fun a => (orgEventIds db org).contains a.eventId)).length

/-- The stats for the seeded store's organizer: one event, no bookings, no
revenue, rate 0. -/
def statsW : Stats := ⟨1, 0, 0, 0⟩

theorem digitsVal_digitsRev : ∀ fuel n, n ≤ fuel → digitsVal (digitsRev fuel n) = n := by
  intro fuel
  induction fuel with
  | zero => intro n hn; interval_cases n; simp [digitsRev, digitsVal]
  | succ fuel ih =>
    intro n hn
    by_cases h0 : n = 0
    · simp [digitsRev, h0, digitsVal]
    · have hdiv : n / 10 ≤ fuel := by
        have : n / 10 < n := Nat.div_lt_self (Nat.pos_of_ne_zero h0) (by omega)
        omega
      simp only [digitsRev, h0, if_false, digitsVal, ih (n / 10) hdiv]
      omega

theorem natChars_injective : Function.Injective natChars := by
  intro a b h
  unfold natChars at h
  by_cases ha : a = 0 <;> by_cases hb : b = 0
  · omega
  · exfalso
    simp only [ha, if_true, hb, if_false] at h
    have h' := congrArg List.reverse h
    simp only [List.reverse_reverse] at h'
    match hd : digitsRev b b with
    | [] => rw [hd] at h'; simp at h'
    | d :: ds =>
      rw [hd] at h'
      simp only [List.map_cons] at h'
      have hlen := congrArg List.length h'
      simp at hlen
      subst hlen
      simp at h'
      have hval : digitsVal (digitsRev b b) = b := digitsVal_digitsRev b b le_rfl
      rw [hd] at hval
      simp [digitsVal] at hval
      omega
  · exfalso
    simp only [ha, if_false, hb, if_true] at h
    have h' := congrArg List.reverse h
    simp only [List.reverse_reverse] at h'
    match hd : digitsRev a a with
    | [] => rw [hd] at h'; simp at h'
    | d :: ds =>
      rw [hd] at h'
      simp only [List.map_cons] at h'
      have hlen := congrArg List.length h'
      simp at hlen
      subst hlen
      simp at h'
      have hval : digitsVal (digitsRev a a) = a := digitsVal_digitsRev a a le_rfl
      rw [hd] at hval
      simp [digitsVal] at hval
      omega
  · simp only [ha, if_false, hb, if_false] at h
    have h1 : (digitsRev a a).map (fun d => 48 + d) = (digitsRev b b).map (fun d => 48 + d) :=
      List.reverse_injective h
    have h2 : digitsRev a a = digitsRev b b := by
      have hinj : Function.Injective (fun d : Nat => 48 + d) := fun x y hxy => by
        simp only at hxy; omega
      exact List.map_injective_iff.mpr hinj h1
    have := congrArg digitsVal h2
    rwa [digitsVal_digitsRev a a le_rfl, digitsVal_digitsRev b b le_rfl] at this

theorem freshId_injective : Function.Injective freshId := natChars_injective

/-- Every character of a decimal numeral is a digit code (48–57); in
particular it is never the dash, code 45. -/
theorem natChars_ge_48 {n : Nat} : ∀ c ∈ natChars n, 48 ≤ c := by
  intro c hc
  unfold natChars at hc
  by_cases h0 : n = 0
  · simp [h0] at hc; omega
  · simp only [h0, if_false, List.mem_reverse, List.mem_map] at hc
    obtain ⟨d, _, rfl⟩ := hc
    omega

theorem natChars_no_dash {n : Nat} : ∀ c ∈ natChars n, c ≠ 45 := by
  intro c hc
  have := natChars_ge_48 c hc
  omega

/-! ## Generic list lemmas -/

/-- Splitting lemma for a successful find: the list decomposes around the
found element, with the predicate failing on everything before it. -/
theorem find?_split {α : Type} {p : α → Bool} {l : List α} {a : α}
    (h : l.find? p = some a) :
    p a = true ∧ ∃ as bs, l = as ++ a :: bs ∧ ∀ x ∈ as, p x = false := by
  rcases List.find?_eq_some.mp h with ⟨hpa, as, bs, rfl, hq⟩
  exact ⟨hpa, as, bs, rfl, fun x hx => by simpa using hq x hx⟩

/-- Two filterMaps that succeed on exactly the same elements produce lists of
the same length. -/
theorem length_filterMap_congr {α β γ : Type} (f : α → Option β) (g : α → Option γ)
    (l : List α) (h : ∀ x ∈ l, (f x).isSome = (g x).isSome) :
    (l.filterMap f).length = (l.filterMap g).length := by
  induction l with
  | nil => rfl
  | cons x xs ih =>
    have hx := h x (by simp)
    have hxs := fun y hy => h y (List.mem_cons_of_mem x hy)
    rw [List.filterMap_cons, List.filterMap_cons]
    cases hf : f x with
    | none => cases hg : g x with
      | none => exact ih hxs
      | some c => rw [hf, hg] at hx; simp at hx
    | some b => cases hg : g x with
      | none => rw [hf, hg] at hx; simp at hx
      | some c => simpa using ih hxs

/-- A filterMap each of whose successes returns the image of the element
under g is a sublist of the map by g. -/
theorem filterMap_sublist_map {α β : Type} (f : α → Option β) (g : α → β)
    (l : List α) (h : ∀ x ∈ l, ∀ y, f x = some y → y = g x) :
    List.Sublist (l.filterMap f) (l.map g) := by
  induction l with
  | nil => simp
  | cons x xs ih =>
    have hxs := fun y hy => h y (List.mem_cons_of_mem x hy)
    rw [List.filterMap_cons, List.map_cons]
    cases hf : f x with
    | none => exact (ih hxs).cons (g x)
    | some b =>
      rw [h x (by simp) b hf]
      exact (ih hxs).cons₂ (g x)

/-- Unique decomposition of a dash-separated pair when neither left part
contains the dash. -/
theorem append_dash_inj : ∀ (a₁ a₂ c₁ c₂ : List Nat),
    (∀ x ∈ a₁, x ≠ 45) → (∀ x ∈ a₂, x ≠ 45) →
    a₁ ++ 45 :: c₁ = a₂ ++ 45 :: c₂ → a₁ = a₂ ∧ c₁ = c₂ := by
  intro a₁
  induction a₁ with
  | nil =>
    intro a₂ c₁ c₂ _ h₂ heq
    cases a₂ with
    | nil => simpa using heq
    | cons y ys =>
      exfalso
      simp only [List.nil_append, List.cons_append, List.cons.injEq] at heq
      exact h₂ y (by simp) heq.1.symm
  | cons x xs ih =>
    intro a₂ c₁ c₂ h₁ h₂ heq
    cases a₂ with
    | nil =>
      exfalso
      simp only [List.nil_append, List.cons_append, List.cons.injEq] at heq
      exact h₁ x (by simp) heq.1
    | cons y ys =>
      simp only [List.cons_append, List.cons.injEq] at heq
      obtain ⟨rfl, htail⟩ := heq
      have := ih ys c₁ c₂ (fun z hz => h₁ z (List.mem_cons_of_mem x hz))
        (fun z hz => h₂ z (List.mem_cons_of_mem x hz)) htail
      exact ⟨by rw [this.1], this.2⟩

/-- The minted ticket code determines the booking id, for dash-free booking
ids. -/
theorem mkQrCode_inj {b₁ b₂ : Str} {n₁ n₂ : Nat}
    (h₁ : ∀ x ∈ b₁, x ≠ 45) (h₂ : ∀ x ∈ b₂, x ≠ 45)
    (h : mkQrCode b₁ n₁ = mkQrCode b₂ n₂) : b₁ = b₂ := by
  unfold mkQrCode at h
  rw [List.append_assoc, List.append_assoc] at h
  have h' := List.append_cancel_left h
  exact (append_dash_inj b₁ b₂ (natChars n₁) (natChars n₂) h₁ h₂ h').1

/-- A fresh id never contains the dash. -/
theorem freshId_no_dash {n : Nat} : ∀ c ∈ freshId n, c ≠ 45 := natChars_no_dash

theorem wf_of_seeded {db : DB} (h : Seeded db) : WF db := by
  obtain ⟨hb, ht, ha⟩ := h
  refine ⟨?_, ?_, ?_, ?_, ?_, ?_, ?_, ?_, ?_, ?_⟩ <;>
    simp [hb, ht, ha, attendPairs, scannedPairs]

/-! ## Elimination lemmas for the scan handler's phases -/

theorem scanJoin_elim {db : DB} {tid : Str} {t : Ticket} {b : Booking} {s : Student}
    (h : scanJoin db tid = some (t, b, s)) :
    findTicket db tid = some t ∧ findBooking db t.bookingId = some b ∧
      findStudentById db b.studentId = some s := by
  unfold scanJoin at h
  cases ht : findTicket db tid with
  | none => simp [ht] at h
  | some t' =>
    simp only [ht] at h
    cases hb : findBooking db t'.bookingId with
    | none => simp [hb] at h
    | some b' =>
      simp only [hb] at h
      cases hs : findStudentById db b'.studentId with
      | none => simp [hs] at h
      | some s' =>
        simp only [hs, Option.some.injEq, Prod.mk.injEq] at h
        obtain ⟨rfl, rfl, rfl⟩ := h
        exact ⟨rfl, hb, hs⟩

theorem scanCheck_of_join {db : DB} {tid : Str} {t : Ticket} {b : Booking} {s : Student}
    (h : scanJoin db tid = some (t, b, s)) :
    scanCheck db Role.ORGANIZER tid =
      if t.isScanned then .error .alreadyScanned else .ok (t, b, s) := by
  obtain ⟨ht, hb, hs⟩ := scanJoin_elim h
  simp [scanCheck, ht, hb, hs]

theorem scanCheck_ok_elim {db : DB} {r : Role} {tid : Str} {t : Ticket} {b : Booking}
    {s : Student} (h : scanCheck db r tid = .ok (t, b, s)) :
    r = Role.ORGANIZER ∧ findTicket db tid = some t ∧
      findBooking db t.bookingId = some b ∧ findStudentById db b.studentId = some s ∧
      t.isScanned = false := by
  unfold scanCheck at h
  by_cases hr : r = Role.ORGANIZER
  · subst hr
    simp only [ne_eq, not_true_eq_false, if_false] at h
    cases ht : findTicket db tid with
    | none => simp [ht] at h
    | some t' =>
      simp only [ht] at h
      cases hb : findBooking db t'.bookingId with
      | none => simp [hb] at h
      | some b' =>
        simp only [hb] at h
        cases hs : findStudentById db b'.studentId with
        | none => simp [hs] at h
        | some s' =>
          simp only [hs] at h
          by_cases hsc : t'.isScanned
          · simp [hsc] at h
          · simp only [hsc, if_false, Except.ok.injEq, Prod.mk.injEq] at h
            obtain ⟨rfl, rfl, rfl⟩ := h
            exact ⟨rfl, rfl, hb, hs, Bool.eq_false_iff.mpr hsc⟩
  · simp [hr] at h

/-! ## Invariant preservation -/

/-- WF only constrains the booking workflow tables, so an operation that
leaves them alone and does not decrease the id counter preserves it. -/
theorem wf_of_untouched {db db' : DB} (wf : WF db)
    (hb : db'.bookings = db.bookings) (ht : db'.tickets = db.tickets)
    (ha : db'.attendances = db.attendances) (hn : db.nextId ≤ db'.nextId) : WF db' := by
  refine ⟨?_, ?_, ?_, ?_, ?_, ?_, ?_, ?_, ?_, ?_⟩
  · intro x hx
    obtain ⟨n, hlt, hid⟩ := wf.bookFresh x (hb ▸ hx)
    exact ⟨n, by omega, hid⟩
  · rw [hb]; exact wf.bookNodup
  · intro x hx
    obtain ⟨n, hlt, hid⟩ := wf.tickFresh x (ht ▸ hx)
    exact ⟨n, by omega, hid⟩
  · rw [ht]; exact wf.tickNodup
  · intro x hx
    obtain ⟨n, hlt, hid⟩ := wf.tickBookFresh x (ht ▸ hx)
    exact ⟨n, by omega, hid⟩
  · rw [ht]; exact wf.tickBookNodup
  · intro x hx; exact wf.tickQr x (ht ▸ hx)
  · intro x hx
    have := wf.tickResolves x (ht ▸ hx)
    unfold findBooking at this ⊢
    rw [hb]
    exact this
  · intro x hx
    rw [ht]
    exact wf.oneTicket x (hb ▸ hx)
  · unfold attendPairs scannedPairs resolvePair
    rw [ha, ht, hb]
    exact wf.pairsPerm

/-- Decomposition of the ticket table around a found ticket, and the shape
of prisma.ticket.update on that id, given uniqueness of ticket ids. -/
theorem update_decomp {l : List Ticket} {t : Ticket} {tid : Str} (now : Nat)
    (hfind : l.find? (fun u => u.id == tid) = some t)
    (hnd : (l.map (fun u => u.id)).Nodup) :
    ∃ as bs, l = as ++ t :: bs ∧
      (∀ x ∈ as, (x.id == tid) = false) ∧ (∀ x ∈ bs, (x.id == tid) = false) ∧
      l.map (fun u : Ticket =>
          if u.id == tid then { u with isScanned := true, scannedAt := some now } else u) =
        as ++ { t with isScanned := true, scannedAt := some now } :: bs := by
  obtain ⟨hpt, as, bs, hl, has⟩ := find?_split hfind
  have htid : t.id = tid := by simpa using hpt
  have hbs : ∀ x ∈ bs, (x.id == tid) = false := by
    intro x hx
    have hnd' := hl ▸ hnd
    rw [List.map_append, List.map_cons, List.nodup_middle] at hnd'
    have hnotin := (List.nodup_cons.mp hnd').1
    rw [← List.map_append] at hnotin
    have : x.id ≠ t.id := by
      intro hcontra
      exact hnotin (hcontra ▸ List.mem_map_of_mem _ (List.mem_append_right as hx))
    simpa [htid] using fun hxe => this (by rw [hxe, htid])
  refine ⟨as, bs, hl, has, hbs, ?_⟩
  subst hl
  rw [List.map_append, List.map_cons]
  congr 1
  · refine (List.map_congr_left ?_).trans (List.map_id as)
    intro x hx
    simp [has x hx]
  · congr 1
    · simp [htid]
    · refine (List.map_congr_left ?_).trans (List.map_id bs)
      intro x hx
      simp [hbs x hx]

/-- Filtered lengths agree across replacing one element by another with the
same predicate value. -/
theorem filter_length_middle {α : Type} {p : α → Bool} (as bs : List α) {x y : α}
    (hxy : p x = p y) :
    ((as ++ x :: bs).filter p).length = ((as ++ y :: bs).filter p).length := by
  cases hpy : p y with
  | false => simp [List.filter_append, List.filter_cons, hxy.trans hpy, hpy]
  | true => simp [List.filter_append, List.filter_cons, hxy.trans hpy, hpy]

/-- The scan handler's write phase preserves the structural invariant on the
success path. -/
theorem wf_scan_success {db : DB} {tid : Str} {t : Ticket} {b : Booking} (now : Nat)
    (wf : WF db) (ht : findTicket db tid = some t) (hsc : t.isScanned = false)
    (hb : findBooking db t.bookingId = some b) :
    WF (scanWrites db tid b now) := by
  obtain ⟨as, bs, hl, has, hbs, hmap⟩ := update_decomp now ht wf.tickNodup
  set U : Ticket := { t with isScanned := true, scannedAt := some now } with hU
  have htm : t ∈ db.tickets := by rw [hl]; exact List.mem_append_right as (by simp)
  have hmem : ∀ x, x ∈ as ++ U :: bs → x ∈ db.tickets ∨ x = U := by
    intro x hx
    rcases List.mem_append.mp hx with hx | hx
    · exact Or.inl (by rw [hl]; exact List.mem_append_left _ hx)
    · rcases List.mem_cons.mp hx with hx | hx
      · exact Or.inr hx
      · exact Or.inl (by rw [hl]; exact List.mem_append_right as (List.mem_cons_of_mem t hx))
  have htix : (scanWrites db tid b now).tickets = as ++ U :: bs := by
    simp only [scanWrites]
    exact hmap
  have hbkg : (scanWrites db tid b now).bookings = db.bookings := rfl
  have hatt : (scanWrites db tid b now).attendances =
      db.attendances ++ [⟨freshId db.nextId, b.studentId, b.eventId⟩] := rfl
  have hnid : (scanWrites db tid b now).nextId = db.nextId + 1 := rfl
  refine ⟨?_, ?_, ?_, ?_, ?_, ?_, ?_, ?_, ?_, ?_⟩
  · intro x hx
    rw [hbkg] at hx
    obtain ⟨n, hlt, hid⟩ := wf.bookFresh x hx
    exact ⟨n, by omega, hid⟩
  · rw [hbkg]; exact wf.bookNodup
  · intro x hx
    rw [htix] at hx
    rcases hmem x hx with hx' | rfl
    · obtain ⟨n, hlt, hid⟩ := wf.tickFresh x hx'
      exact ⟨n, by omega, hid⟩
    · obtain ⟨n, hlt, hid⟩ := wf.tickFresh t htm
      exact ⟨n, by omega, hid⟩
  · rw [htix]
    have : (as ++ U :: bs).map (fun u => u.id) = db.tickets.map (fun u => u.id) := by
      rw [hl]; simp [hU]
    rw [this]; exact wf.tickNodup
  · intro x hx
    rw [htix] at hx
    rcases hmem x hx with hx' | rfl
    · obtain ⟨n, hlt, hid⟩ := wf.tickBookFresh x hx'
      exact ⟨n, by omega, hid⟩
    · obtain ⟨n, hlt, hid⟩ := wf.tickBookFresh t htm
      exact ⟨n, by omega, hid⟩
  · rw [htix]
    have : (as ++ U :: bs).map (fun u => u.bookingId) =
        db.tickets.map (fun u => u.bookingId) := by
      rw [hl]; simp [hU]
    rw [this]; exact wf.tickBookNodup
  · intro x hx
    rw [htix] at hx
    rcases hmem x hx with hx' | rfl
    · exact wf.tickQr x hx'
    · exact wf.tickQr t htm
  · intro x hx
    rw [htix] at hx
    have hfb : findBooking (scanWrites db tid b now) = findBooking db := by
      funext bid; unfold findBooking; rw [hbkg]
    rw [hfb]
    rcases hmem x hx with hx' | rfl
    · exact wf.tickResolves x hx'
    · exact wf.tickResolves t htm
  · intro x hx
    rw [hbkg] at hx
    rw [htix]
    have := wf.oneTicket x hx
    rw [hl] at this
    rw [filter_length_middle as bs (by simp [hU] : (fun u => u.bookingId == x.id) U =
      (fun u => u.bookingId == x.id) t)]
    exact this
  · have hb' : db.bookings.find? (fun x => x.id == t.bookingId) = some b := hb
    have hpair : resolvePair db.bookings U = some (b.studentId, b.eventId) := by
      simp [resolvePair, show U.isScanned = true from rfl,
        show U.bookingId = t.bookingId from rfl, hb']
    have hpairt : resolvePair db.bookings t = none := by
      simp [resolvePair, hsc]
    unfold attendPairs scannedPairs
    rw [hatt, htix, hbkg]
    rw [List.map_append]
    have hleft : List.Perm
        (db.attendances.map (fun a => (a.studentId, a.eventId)) ++
          [(⟨freshId db.nextId, b.studentId, b.eventId⟩ : Attendance)].map
            (fun a => (a.studentId, a.eventId)))
        (scannedPairs db ++ [(b.studentId, b.eventId)]) := by
      simp only [List.map_cons, List.map_nil]
      exact (wf.pairsPerm).append_right _
    refine hleft.trans ?_
    have hsp : scannedPairs db =
        as.filterMap (resolvePair db.bookings) ++ bs.filterMap (resolvePair db.bookings) := by
      unfold scannedPairs
      rw [hl, List.filterMap_append, List.filterMap_cons, hpairt]
    have hsp' : (as ++ U :: bs).filterMap (resolvePair db.bookings) =
        as.filterMap (resolvePair db.bookings) ++
          (b.studentId, b.eventId) :: bs.filterMap (resolvePair db.bookings) := by
      rw [List.filterMap_append, List.filterMap_cons, hpair]
    rw [hsp, hsp']
    refine (List.perm_append_singleton _ _).trans ?_
    exact List.perm_middle.symm

/-- A fresh id with index at least m cannot be among ids generated with
indices below m. -/
theorem freshId_notin_map {α : Type} (f : α → Str) {l : List α} {m k : Nat}
    (h : ∀ x ∈ l, ∃ n < m, f x = freshId n) (hk : m ≤ k) :
    freshId k ∉ l.map f := by
  intro hmem
  obtain ⟨x, hx, hfx⟩ := List.mem_map.mp hmem
  obtain ⟨n, hlt, he⟩ := h x hx
  have : n = k := freshId_injective (he.symm.trans hfx)
  omega

theorem nodup_append_singleton {α : Type} {l : List α} {a : α} (hl : l.Nodup)
    (ha : a ∉ l) : (l ++ [a]).Nodup := by
  rw [List.nodup_append]
  exact ⟨hl, List.nodup_singleton a, by simpa [List.disjoint_singleton] using ha⟩

/-- The shape of the state after a successful booking call: one booking
appended with the current fresh id, one ticket appended with the next id,
referencing that booking and carrying the minted code. -/
theorem wf_book_insert {db db' : DB} (wf : WF db) (st : Student) (eid : Str) (now : Nat)
    (hbk : db'.bookings = db.bookings ++ [⟨freshId db.nextId, st.id, eid, strPAID⟩])
    (htk : db'.tickets = db.tickets ++ [⟨freshId (db.nextId + 1), freshId db.nextId,
      mkQrCode (freshId db.nextId) now, false, none⟩])
    (hat : db'.attendances = db.attendances)
    (hn : db'.nextId = db.nextId + 2) : WF db' := by
  set b : Booking := ⟨freshId db.nextId, st.id, eid, strPAID⟩ with hbdef
  set t : Ticket := ⟨freshId (db.nextId + 1), freshId db.nextId,
    mkQrCode (freshId db.nextId) now, false, none⟩ with htdef
  refine ⟨?_, ?_, ?_, ?_, ?_, ?_, ?_, ?_, ?_, ?_⟩
  · intro x hx
    rw [hbk] at hx
    rw [hn]
    rcases List.mem_append.mp hx with hx | hx
    · obtain ⟨n, hlt, hid⟩ := wf.bookFresh x hx
      exact ⟨n, by omega, hid⟩
    · rcases List.mem_singleton.mp hx with rfl
      exact ⟨db.nextId, by omega, rfl⟩
  · rw [hbk]
    simp only [List.map_append, List.map_cons, List.map_nil]
    exact nodup_append_singleton wf.bookNodup
      (freshId_notin_map (fun x : Booking => x.id) wf.bookFresh le_rfl)
  · intro x hx
    rw [htk] at hx
    rw [hn]
    rcases List.mem_append.mp hx with hx | hx
    · obtain ⟨n, hlt, hid⟩ := wf.tickFresh x hx
      exact ⟨n, by omega, hid⟩
    · rcases List.mem_singleton.mp hx with rfl
      exact ⟨db.nextId + 1, by omega, rfl⟩
  · rw [htk]
    simp only [List.map_append, List.map_cons, List.map_nil]
    exact nodup_append_singleton wf.tickNodup
      (freshId_notin_map (fun x : Ticket => x.id) wf.tickFresh (by omega))
  · intro x hx
    rw [htk] at hx
    rw [hn]
    rcases List.mem_append.mp hx with hx | hx
    · obtain ⟨n, hlt, hid⟩ := wf.tickBookFresh x hx
      exact ⟨n, by omega, hid⟩
    · rcases List.mem_singleton.mp hx with rfl
      exact ⟨db.nextId, by omega, rfl⟩
  · rw [htk]
    simp only [List.map_append, List.map_cons, List.map_nil]
    exact nodup_append_singleton wf.tickBookNodup
      (freshId_notin_map (fun x : Ticket => x.bookingId) wf.tickBookFresh le_rfl)
  · intro x hx
    rw [htk] at hx
    rcases List.mem_append.mp hx with hx | hx
    · exact wf.tickQr x hx
    · rcases List.mem_singleton.mp hx with rfl
      exact ⟨now, rfl⟩
  · intro x hx
    rw [htk] at hx
    unfold findBooking
    rw [hbk, List.find?_append]
    rcases List.mem_append.mp hx with hx | hx
    · have := wf.tickResolves x hx
      unfold findBooking at this
      obtain ⟨v, hv⟩ := Option.isSome_iff_exists.mp this
      simp [hv]
    · rcases List.mem_singleton.mp hx with rfl
      cases hfo : db.bookings.find? (fun y => y.id == t.bookingId) with
      | some v => simp [hfo]
      | none => simp [hfo, Option.or]
  · intro x hx
    rw [hbk] at hx
    rw [htk, List.filter_append]
    rcases List.mem_append.mp hx with hx | hx
    · have hne : (t.bookingId == x.id) = false := by
        obtain ⟨n, hlt, hid⟩ := wf.bookFresh x hx
        simp only [htdef, hid, beq_eq_false_iff_ne, ne_eq]
        intro hcontra
        have : db.nextId = n := freshId_injective hcontra
        omega
      simp only [List.filter_cons, hne, Bool.false_eq_true, if_false, List.filter_nil,
        List.append_nil]
      exact wf.oneTicket x hx
    · rcases List.mem_singleton.mp hx with rfl
      have hold : db.tickets.filter (fun u => u.bookingId == b.id) = [] := by
        rw [List.filter_eq_nil_iff]
        intro u hu
        obtain ⟨n, hlt, hid⟩ := wf.tickBookFresh u hu
        simp only [hbdef, hid, beq_iff_eq]
        intro hcontra
        have : n = db.nextId := freshId_injective hcontra
        omega
      have hyes : (t.bookingId == b.id) = true := by
        simp [htdef, hbdef]
      rw [hold]
      simp only [List.filter_cons, hyes, if_true, List.filter_nil]
      simp
  · unfold attendPairs scannedPairs
    rw [hat, htk, hbk, List.filterMap_append]
    have htnew : resolvePair (db.bookings ++ [b]) t = none := by
      simp [resolvePair, htdef]
    have hcongr : db.tickets.filterMap (resolvePair (db.bookings ++ [b])) =
        db.tickets.filterMap (resolvePair db.bookings) := by
      apply List.filterMap_congr
      intro x hx
      unfold resolvePair
      cases hxs : x.isScanned with
      | false => simp
      | true =>
        simp only [if_true]
        have := wf.tickResolves x hx
        unfold findBooking at this
        obtain ⟨v, hv⟩ := Option.isSome_iff_exists.mp this
        rw [List.find?_append, hv]
        simp [Option.or]
    rw [hcongr]
    simp only [List.filterMap_cons, htnew, List.filterMap_nil, List.append_nil]
    exact wf.pairsPerm

/-- The booking handler preserves the structural invariant (on both its
paths). -/
theorem wf_createBooking {db : DB} {uid eid : Str} {now : Nat} (wf : WF db) :
    WF (createBooking db uid eid now).2 := by
  unfold createBooking createBookingFallible
  cases hst : findStudentByUser db uid with
  | none => exact wf
  | some st => exact wf_book_insert wf st eid now rfl rfl rfl rfl

/-- The event-creation handler preserves the structural invariant. -/
theorem wf_createEvent {db : DB} {r : Role} {uid : Str} {cap price : Nat} (wf : WF db) :
    WF (createEvent db r uid cap price).2 := by
  unfold createEvent
  by_cases hr : r = Role.ORGANIZER
  · subst hr
    simp only [ne_eq, not_true_eq_false, if_false]
    cases ho : findOrganizerByUser db uid with
    | none => exact wf
    | some org =>
      cases ha : org.isApproved with
      | false => simp only [ha]; exact wf
      | true =>
        simp only [ha, Bool.not_true, Bool.false_eq_true, if_false]
        exact wf_of_untouched wf rfl rfl rfl (Nat.le_succ _)
  · simp only [hr, ne_eq, not_false_eq_true, if_true]
    exact wf

/-- The guest-auth handler preserves the structural invariant. -/
theorem wf_authGuest {db : DB} {req : GuestReq} (wf : WF db) :
    WF (authGuest db req).2 :=
  wf_of_untouched wf rfl rfl rfl (Nat.le_succ _)

/-- The scan handler preserves the structural invariant on every path. -/
theorem wf_scanTicket {db : DB} {r : Role} {tid : Str} {now : Nat} (wf : WF db) :
    WF (scanTicket db r tid now).2 := by
  unfold scanTicket
  cases hchk : scanCheck db r tid with
  | error e => exact wf
  | ok v =>
    obtain ⟨t, b, s⟩ := v
    obtain ⟨_, ht, hb, _, hsc⟩ := scanCheck_ok_elim hchk
    exact wf_scan_success now wf ht hsc hb

theorem wf_step {db db' : DB} (wf : WF db) (h : Step db db') : WF db' := by
  cases h with
  | book uid eid now => exact wf_createBooking wf
  | scan r tid now => exact wf_scanTicket wf
  | event r uid cap price => exact wf_createEvent wf
  | guest req => exact wf_authGuest wf

/-- Every state reachable from a seeded state satisfies the structural
invariant. -/
theorem wf_reachable {db0 db : DB} (h0 : Seeded db0) (h : Reachable db0 db) :
    WF db := by
  induction h with
  | refl => exact wf_of_seeded h0
  | step _ hs ih => exact wf_step ih hs

theorem attend_le_book {db : DB} (wf : WF db) (es : List Str) :
    (db.attendances.filter (fun a => es.contains a.eventId)).length ≤
      (db.bookings.filter (fun b => es.contains b.eventId)).length := by
  have h1 : (db.attendances.filter (fun a => es.contains a.eventId)).length =
      ((attendPairs db).filter (fun p => es.contains p.2)).length := by
    unfold attendPairs
    rw [List.filter_map]
    rw [List.length_map]
    rfl
  have h2 : ((attendPairs db).filter (fun p => es.contains p.2)).length =
      ((scannedPairs db).filter (fun p => es.contains p.2)).length :=
    (wf.pairsPerm.filter (fun p => es.contains p.2)).length_eq
  have h3 : ((scannedPairs db).filter (fun p => es.contains p.2)).length =
      (db.tickets.filterMap (scannedBookingFor db.bookings es)).length := by
    unfold scannedPairs
    rw [List.filter_filterMap]
    apply length_filterMap_congr
    intro t htm
    unfold resolvePair scannedBookingFor
    cases hts : t.isScanned with
    | false => simp
    | true =>
      simp only [if_true]
      cases hfo : db.bookings.find? (fun y => y.id == t.bookingId) with
      | none => simp
      | some v =>
        simp only [Option.map_some', Option.some_bind, Option.filter_some]
        cases hc : es.contains v.eventId with
        | false => simp
        | true => simp
  have hsub : db.tickets.filterMap (scannedBookingFor db.bookings es) ⊆
      db.bookings.filter (fun b => es.contains b.eventId) := by
    intro x hx
    obtain ⟨t, htm, hgt⟩ := List.mem_filterMap.mp hx
    unfold scannedBookingFor at hgt
    cases hts : t.isScanned with
    | false => rw [hts] at hgt; simp at hgt
    | true =>
      rw [hts] at hgt
      simp only [if_true] at hgt
      cases hfo : db.bookings.find? (fun y => y.id == t.bookingId) with
      | none => rw [hfo] at hgt; simp at hgt
      | some v =>
        rw [hfo] at hgt
        simp only [Option.some_bind] at hgt
        cases hc : es.contains v.eventId with
        | false => rw [hc] at hgt; simp at hgt
        | true =>
          rw [hc] at hgt
          simp only [if_true, Option.some.injEq] at hgt
          subst hgt
          rw [List.mem_filter]
          exact ⟨List.mem_of_find?_eq_some hfo, hc⟩
  have hnodup : (db.tickets.filterMap (scannedBookingFor db.bookings es)).Nodup := by
    apply List.Nodup.of_map (fun b : Booking => b.id)
    have hmap : (db.tickets.filterMap (scannedBookingFor db.bookings es)).map
        (fun b : Booking => b.id) =
        db.tickets.filterMap
          (fun t => (scannedBookingFor db.bookings es t).map (fun b : Booking => b.id)) :=
      List.map_filterMap _ _ _
    rw [hmap]
    have hsubl : List.Sublist
        (db.tickets.filterMap
          (fun t => (scannedBookingFor db.bookings es t).map (fun b : Booking => b.id)))
        (db.tickets.map (fun t => t.bookingId)) := by
      apply filterMap_sublist_map
      intro t htm y hy
      unfold scannedBookingFor at hy
      cases hts : t.isScanned with
      | false => rw [hts] at hy; simp at hy
      | true =>
        rw [hts] at hy
        simp only [if_true] at hy
        cases hfo : db.bookings.find? (fun z => z.id == t.bookingId) with
        | none => rw [hfo] at hy; simp at hy
        | some v =>
          rw [hfo] at hy
          simp only [Option.some_bind] at hy
          cases hc : es.contains v.eventId with
          | false => rw [hc] at hy; simp at hy
          | true =>
            rw [hc] at hy
            simp only [if_true, Option.map_some', Option.some.injEq] at hy
            subst hy
            have := List.find?_some hfo
            simpa using this
    exact hsubl.nodup wf.tickBookNodup
  have hle : (db.tickets.filterMap (scannedBookingFor db.bookings es)).length ≤
      (db.bookings.filter (fun b => es.contains b.eventId)).length :=
    (List.subperm_of_subset hnodup hsub).length_le
  omega

/-! ## Behavior of the scan handler -/

theorem scanTicket_success {db : DB} {tid : Str} {t : Ticket} {b : Booking} {s : Student}
    (now : Nat) (h : scanJoin db tid = some (t, b, s)) (hsc : t.isScanned = false) :
    scanTicket db Role.ORGANIZER tid now = (.success s, scanWrites db tid b now) := by
  unfold scanTicket
  rw [scanCheck_of_join h, hsc]
  simp

theorem scanTicket_already {db : DB} {tid : Str} {t : Ticket} {b : Booking} {s : Student}
    (now : Nat) (h : scanJoin db tid = some (t, b, s)) (hsc : t.isScanned = true) :
    scanTicket db Role.ORGANIZER tid now = (.alreadyScanned, db) := by
  unfold scanTicket
  rw [scanCheck_of_join h, hsc]
  simp

/-- The ticket the scan's update writes: looked up again by the same id, it
is the old ticket with the scanned flag and timestamp set. -/
theorem findTicket_scanWrites (db : DB) (tid : Str) (b : Booking) (now : Nat) :
    findTicket (scanWrites db tid b now) tid =
      (findTicket db tid).map
        (fun t => { t with isScanned := true, scannedAt := some now }) := by
  unfold findTicket scanWrites
  simp only
  induction db.tickets with
  | nil => rfl
  | cons x xs ih =>
    cases hx : (x.id == tid) with
    | true =>
      simp only [List.map_cons, hx, if_true]
      rw [List.find?_cons_of_pos _ (by simpa using hx),
        List.find?_cons_of_pos _ (by simpa using hx)]
      simp
    | false =>
      simp only [List.map_cons, hx, Bool.false_eq_true, if_false]
      rw [List.find?_cons_of_neg _ (by simp [hx]), List.find?_cons_of_neg _ (by simp [hx])]
      exact ih

/-- After a successful scan, the joined lookup of the same ticket id yields
the updated (scanned) ticket with the same booking and student. -/
theorem scanJoin_scanWrites {db : DB} {tid : Str} {t : Ticket} {b : Booking} {s : Student}
    (now : Nat) (h : scanJoin db tid = some (t, b, s)) :
    scanJoin (scanWrites db tid b now) tid =
      some ({ t with isScanned := true, scannedAt := some now }, b, s) := by
  obtain ⟨ht, hb, hs⟩ := scanJoin_elim h
  have hft : findTicket (scanWrites db tid b now) tid =
      some { t with isScanned := true, scannedAt := some now } := by
    rw [findTicket_scanWrites, ht]
    rfl
  have hfb : findBooking (scanWrites db tid b now) t.bookingId = some b := hb
  have hfs : findStudentById (scanWrites db tid b now) b.studentId = some s := hs
  unfold scanJoin
  simp only [hft, hfb, hfs]

/-! ## Claim theorems -/

/-- C1: for every ticket that is already scanned, the scan operation fails
with AlreadyScanned, creates no Attendance record and leaves the store (in
particular the ticket) unchanged; hence scanning an unscanned ticket twice
in sequence yields exactly one unscanned-to-scanned transition and exactly
one appended Attendance record, with the second call rejected and the state
untouched by it. -/
theorem C1_already_scanned_exactly_once (db : DB) (tid : Str) (now1 now2 : Nat)
    (t : Ticket) (b : Booking) (s : Student)
    (hjoin : scanJoin db tid = some (t, b, s)) :
    (t.isScanned = true → scanTicket db Role.ORGANIZER tid now1 = (.alreadyScanned, db)) ∧
    (t.isScanned = false →
      (scanTicket db Role.ORGANIZER tid now1).1 = .success s ∧
      (scanTicket db Role.ORGANIZER tid now1).2.attendances.length =
        db.attendances.length + 1 ∧
      findTicket (scanTicket db Role.ORGANIZER tid now1).2 tid =
        some { t with isScanned := true, scannedAt := some now1 } ∧
      scanTicket (scanTicket db Role.ORGANIZER tid now1).2 Role.ORGANIZER tid now2 =
        (.alreadyScanned, (scanTicket db Role.ORGANIZER tid now1).2)) := by
  constructor
  · intro hsc
    exact scanTicket_already now1 hjoin hsc
  · intro hsc
    rw [scanTicket_success now1 hjoin hsc]
    refine ⟨rfl, ?_, ?_, ?_⟩
    · show (scanWrites db tid b now1).attendances.length = db.attendances.length + 1
      simp [scanWrites]
    · rw [findTicket_scanWrites]
      obtain ⟨ht, _, _⟩ := scanJoin_elim hjoin
      rw [ht]
      rfl
    · exact scanTicket_already now2 (scanJoin_scanWrites now1 hjoin) rfl

/-- Witness for C1 at the concrete store: the sample unscanned ticket is
scanned once successfully, one attendance row appears, and the second scan
is rejected without changing the state. -/
theorem C1_already_scanned_exactly_once_witness :
    (scanTicket sampleDB Role.ORGANIZER [5] 6).1 = .success sampleStudent ∧
    (scanTicket sampleDB Role.ORGANIZER [5] 6).2.attendances.length =
      sampleDB.attendances.length + 1 ∧
    findTicket (scanTicket sampleDB Role.ORGANIZER [5] 6).2 [5] =
      some { sampleTicket with isScanned := true, scannedAt := some 6 } ∧
    scanTicket (scanTicket sampleDB Role.ORGANIZER [5] 6).2 Role.ORGANIZER [5] 7 =
      (.alreadyScanned, (scanTicket sampleDB Role.ORGANIZER [5] 6).2) :=
  (C1_already_scanned_exactly_once sampleDB [5] 6 7 sampleTicket sampleBooking
    sampleStudent (by decide)).2 (by decide)

/-- C2: for an existing, not-yet-scanned ticket, a scan by an organizer-role
caller succeeds: it returns success with the booking's student, sets the
scanned flag and timestamp on that ticket, and appends exactly one
Attendance record keyed by the booking's studentId and eventId. -/
theorem C2_successful_scan_effects (db : DB) (tid : Str) (now : Nat)
    (t : Ticket) (b : Booking) (s : Student)
    (hjoin : scanJoin db tid = some (t, b, s)) (hsc : t.isScanned = false) :
    (scanTicket db Role.ORGANIZER tid now).1 = .success s ∧
    findTicket (scanTicket db Role.ORGANIZER tid now).2 tid =
      some { t with isScanned := true, scannedAt := some now } ∧
    (scanTicket db Role.ORGANIZER tid now).2.attendances =
      db.attendances ++ [⟨freshId db.nextId, b.studentId, b.eventId⟩] := by
  rw [scanTicket_success now hjoin hsc]
  refine ⟨rfl, ?_, rfl⟩
  rw [findTicket_scanWrites]
  obtain ⟨ht, _, _⟩ := scanJoin_elim hjoin
  rw [ht]
  rfl

/-- Witness for C2 at the concrete store. -/
theorem C2_successful_scan_effects_witness :
    (scanTicket sampleDB Role.ORGANIZER [5] 6).1 = .success sampleStudent ∧
    findTicket (scanTicket sampleDB Role.ORGANIZER [5] 6).2 [5] =
      some { sampleTicket with isScanned := true, scannedAt := some 6 } ∧
    (scanTicket sampleDB Role.ORGANIZER [5] 6).2.attendances =
      sampleDB.attendances ++ [⟨freshId sampleDB.nextId, sampleBooking.studentId,
        sampleBooking.eventId⟩] :=
  C2_successful_scan_effects sampleDB [5] 6 sampleTicket sampleBooking sampleStudent
    (by decide) (by decide)

/-- C5: the booking handler performs no capacity check: for every caller
with a student profile, the booking is accepted and a ticket minted even
when the event's existing bookings already reach or exceed its capacity. -/
theorem C5_unbounded_overbooking (db : DB) (uid eid : Str) (now : Nat)
    (st : Student) (e : Event)
    (hst : findStudentByUser db uid = some st)
    (he : e ∈ db.events) (hid : e.id = eid)
    (hover : e.capacity ≤ (db.bookings.filter (fun b => b.eventId == eid)).length) :
    (createBooking db uid eid now).1 =
      .ok (⟨freshId db.nextId, st.id, eid, strPAID⟩,
        ⟨freshId (db.nextId + 1), freshId db.nextId, mkQrCode (freshId db.nextId) now,
          false, none⟩) ∧
    (createBooking db uid eid now).2.bookings =
      db.bookings ++ [⟨freshId db.nextId, st.id, eid, strPAID⟩] ∧
    (createBooking db uid eid now).2.tickets =
      db.tickets ++ [⟨freshId (db.nextId + 1), freshId db.nextId,
        mkQrCode (freshId db.nextId) now, false, none⟩] := by
  unfold createBooking createBookingFallible
  rw [hst]
  exact ⟨rfl, rfl, rfl⟩

/-- Witness for C5 at the concrete store: the sample event has capacity 0
and one existing booking, yet the booking call succeeds. -/
theorem C5_unbounded_overbooking_witness :
    (createBooking sampleDB [2] [4] 11).1 =
      .ok (⟨freshId sampleDB.nextId, sampleStudent.id, [4], strPAID⟩,
        ⟨freshId (sampleDB.nextId + 1), freshId sampleDB.nextId,
          mkQrCode (freshId sampleDB.nextId) 11, false, none⟩) ∧
    (createBooking sampleDB [2] [4] 11).2.bookings =
      sampleDB.bookings ++ [⟨freshId sampleDB.nextId, sampleStudent.id, [4], strPAID⟩] ∧
    (createBooking sampleDB [2] [4] 11).2.tickets =
      sampleDB.tickets ++ [⟨freshId (sampleDB.nextId + 1), freshId sampleDB.nextId,
        mkQrCode (freshId sampleDB.nextId) 11, false, none⟩] :=
  C5_unbounded_overbooking sampleDB [2] [4] 11 sampleStudent sampleEvent
    (by decide) (by decide) (by decide) (by decide)

/-- C10: the guest-auth handler always creates a user with role GUEST,
ignoring any role in the request body; the created user and the signed token
payload both carry GUEST. -/
theorem C10_guest_role_forced (db : DB) (req : GuestReq) :
    (authGuest db req).1.1.role = Role.GUEST ∧
    (authGuest db req).1.2.role = Role.GUEST ∧
    (authGuest db req).2.users = db.users ++ [⟨freshId db.nextId, Role.GUEST⟩] :=
  ⟨rfl, rfl, rfl⟩

/-- C4 counterexample: with a caller who has a student profile and an
eventId matching no event in the store, the booking call does not fail at
all: it succeeds and creates both a booking and a ticket (the handler never
looks at the event table). -/
theorem C4_counterexample_no_event_not_found :
    dbSeeded.events.filter (fun e => e.id == [99]) = [] ∧
    (createBooking dbSeeded [2] [99] 0).1 =
      .ok (⟨freshId 8, [1], [99], strPAID⟩,
        ⟨freshId 9, freshId 8, mkQrCode (freshId 8) 0, false, none⟩) ∧
    (createBooking dbSeeded [2] [99] 0).2.bookings.length = 1 ∧
    (createBooking dbSeeded [2] [99] 0).2.tickets.length = 1 := by
  decide

/-- C4 amended: the booking handler performs no event-existence check; for
every caller with a student profile and every eventId — including one that
references no existing event — it does not fail with any EventNotFound
error but creates the booking (carrying the dangling eventId) and its
ticket.  Event validation is left to the database layer outside the
handler. -/
theorem C4_amended_no_event_validation (db : DB) (uid eid : Str) (now : Nat)
    (st : Student)
    (hst : findStudentByUser db uid = some st)
    (hnoevent : ∀ e ∈ db.events, e.id ≠ eid) :
    (createBooking db uid eid now).1 =
      .ok (⟨freshId db.nextId, st.id, eid, strPAID⟩,
        ⟨freshId (db.nextId + 1), freshId db.nextId, mkQrCode (freshId db.nextId) now,
          false, none⟩) ∧
    (createBooking db uid eid now).2.bookings =
      db.bookings ++ [⟨freshId db.nextId, st.id, eid, strPAID⟩] ∧
    (createBooking db uid eid now).2.tickets =
      db.tickets ++ [⟨freshId (db.nextId + 1), freshId db.nextId,
        mkQrCode (freshId db.nextId) now, false, none⟩] := by
  unfold createBooking createBookingFallible
  rw [hst]
  exact ⟨rfl, rfl, rfl⟩

/-- Witness for the amended C4 at the concrete store, with an eventId that
exists nowhere. -/
theorem C4_amended_no_event_validation_witness :
    (createBooking dbSeeded [2] [99] 0).1 =
      .ok (⟨freshId dbSeeded.nextId, sampleStudent.id, [99], strPAID⟩,
        ⟨freshId (dbSeeded.nextId + 1), freshId dbSeeded.nextId,
          mkQrCode (freshId dbSeeded.nextId) 0, false, none⟩) ∧
    (createBooking dbSeeded [2] [99] 0).2.bookings =
      dbSeeded.bookings ++ [⟨freshId dbSeeded.nextId, sampleStudent.id, [99], strPAID⟩] ∧
    (createBooking dbSeeded [2] [99] 0).2.tickets =
      dbSeeded.tickets ++ [⟨freshId (dbSeeded.nextId + 1), freshId dbSeeded.nextId,
        mkQrCode (freshId dbSeeded.nextId) 0, false, none⟩] :=
  C4_amended_no_event_validation dbSeeded [2] [99] 0 sampleStudent (by decide) (by decide)

/-- C3: against the claim, the two inserts of the booking handler are not a
unit of work: when the ticket insert fails after booking.create committed,
the booking row remains, with no rollback or compensating delete — the
state after the failed call holds the orphan booking and no ticket. -/
theorem C3_orphan_booking_on_ticket_failure :
    (createBookingFallible dbSeeded [2] [4] 0 false).1 = .error .ticketInsertFailed ∧
    (createBookingFallible dbSeeded [2] [4] 0 false).2.bookings =
      [⟨freshId 8, [1], [4], strPAID⟩] ∧
    (createBookingFallible dbSeeded [2] [4] 0 false).2.tickets = [] := by
  decide

/-- C8: against the claim, two concurrent scans of the same unscanned
ticket can both succeed: in the interleaving where both requests run their
findUnique check before either performs its writes — permitted because the
check and the writes are separate awaited prisma calls with no transaction
or conditional update — both calls return success and two Attendance rows
are created. -/
theorem C8_concurrent_scans_both_succeed :
    (twoScansBothCheckFirst sampleDB Role.ORGANIZER Role.ORGANIZER [5] 6 7).1 =
      .success sampleStudent ∧
    (twoScansBothCheckFirst sampleDB Role.ORGANIZER Role.ORGANIZER [5] 6 7).2.1 =
      .success sampleStudent ∧
    (twoScansBothCheckFirst sampleDB Role.ORGANIZER Role.ORGANIZER
      [5] 6 7).2.2.attendances.length = 2 := by
  decide

/-- C9 counterexample: the code minted at booking time is not the token the
scanner consumes.  The booking call against the seeded store mints the
ticket tW whose qr code is TICKET-8-5; presenting that code to the scan
handler fails with TicketNotFound, because the handler looks tickets up by
their id, which the ticket pdf exposes and which differs from the code. -/
theorem C9_counterexample_code_not_consumed :
    (createBooking dbSeeded [2] [4] 5).1 = .ok (bW, tW) ∧
    scanTicket db9 Role.ORGANIZER tW.qrCode 6 = (.ticketNotFound, db9) ∧
    (scanTicket db9 Role.ORGANIZER tW.id 6).1 = .success sampleStudent := by
  decide

/-- C9 amended: the scan operation identifies the ticket by its database id
(the request's ticketId matched against ticket.id), not by the minted qr
code: scanning an existing unscanned ticket by its id succeeds, while any
key that is no ticket's id — in particular the minted qr code whenever it
differs from every ticket id — fails with TicketNotFound; the qr code is
never read by the scanner. -/
theorem C9_amended_scan_keyed_by_id (db : DB) (now : Nat)
    (t : Ticket) (b : Booking) (s : Student)
    (hjoin : scanJoin db t.id = some (t, b, s)) (hsc : t.isScanned = false) :
    (scanTicket db Role.ORGANIZER t.id now).1 = .success s ∧
    (∀ key, (∀ u ∈ db.tickets, u.id ≠ key) →
      scanTicket db Role.ORGANIZER key now = (.ticketNotFound, db)) := by
  constructor
  · rw [scanTicket_success now hjoin hsc]
  · intro key hkey
    have hnone : findTicket db key = none := by
      unfold findTicket
      rw [List.find?_eq_none]
      intro u hu
      simpa using hkey u hu
    unfold scanTicket scanCheck
    rw [hnone]
    simp

/-- Witness for the amended C9: at the store holding the minted ticket tW,
scanning by its id succeeds and scanning by its minted qr code — which is
no ticket's id — is rejected with TicketNotFound. -/
theorem C9_amended_scan_keyed_by_id_witness :
    (scanTicket db9 Role.ORGANIZER tW.id 6).1 = .success sampleStudent ∧
    scanTicket db9 Role.ORGANIZER tW.qrCode 6 = (.ticketNotFound, db9) :=
  ⟨(C9_amended_scan_keyed_by_id db9 6 tW bW sampleStudent (by decide) (by decide)).1,
   (C9_amended_scan_keyed_by_id db9 6 tW bW sampleStudent (by decide) (by decide)).2
     tW.qrCode (by decide)⟩

/-- C6: in every state reachable from a seeded store by API calls, the qr
codes of all tickets ever issued are pairwise distinct, and every booking
(all of which come from successful booking calls) has exactly one ticket
referencing it. -/
theorem C6_codes_unique_one_ticket_per_booking (db0 db : DB)
    (h0 : Seeded db0) (h : Reachable db0 db) :
    (db.tickets.map (fun t => t.qrCode)).Nodup ∧
    ∀ b ∈ db.bookings, (db.tickets.filter (fun t => t.bookingId == b.id)).length = 1 := by
  have wf := wf_reachable h0 h
  refine ⟨?_, wf.oneTicket⟩
  have hpw : List.Pairwise (fun a c : Ticket => a.bookingId ≠ c.bookingId) db.tickets :=
    List.pairwise_map.mp wf.tickBookNodup
  have hpw' : List.Pairwise (fun a c : Ticket => a.qrCode ≠ c.qrCode) db.tickets := by
    refine List.Pairwise.imp_of_mem ?_ hpw
    intro a c ha hc hne heq
    obtain ⟨ts1, hq1⟩ := wf.tickQr a ha
    obtain ⟨ts2, hq2⟩ := wf.tickQr c hc
    obtain ⟨n1, _, hb1⟩ := wf.tickBookFresh a ha
    obtain ⟨n2, _, hb2⟩ := wf.tickBookFresh c hc
    refine hne (mkQrCode_inj ?_ ?_ (by rw [← hq1, ← hq2, heq]))
    · rw [hb1]; exact freshId_no_dash
    · rw [hb2]; exact freshId_no_dash
  exact List.pairwise_map.mpr hpw'

/-- Witness for C6: one booking call against the seeded store; the
resulting state has pairwise distinct ticket codes and one ticket per
booking. -/
theorem C6_codes_unique_one_ticket_per_booking_witness :
    (((createBooking dbSeeded [2] [4] 5).2.tickets.map (fun t => t.qrCode)).Nodup) ∧
    ∀ b ∈ (createBooking dbSeeded [2] [4] 5).2.bookings,
      ((createBooking dbSeeded [2] [4] 5).2.tickets.filter
        (fun t => t.bookingId == b.id)).length = 1 :=
  C6_codes_unique_one_ticket_per_booking dbSeeded _ ⟨rfl, rfl, rfl⟩
    (Reachable.step Reachable.refl (Step.book dbSeeded [2] [4] 5))

/-- C7: the stats handler returns attendanceRate equal to
count(attendance) / count(bookings) × 100 over the organizer's events when
there are bookings and 0 otherwise, and in every state reachable from a
seeded store the returned value lies in [0, 100]. -/
theorem C7_attendance_rate_formula_and_bounds (db0 db : DB) (uid : Str) (st : Stats)
    (h0 : Seeded db0) (h : Reachable db0 db)
    (hst : getOrganizerStats db uid = some st) :
    0 ≤ st.attendanceRate ∧ st.attendanceRate ≤ 100 ∧
    ∃ org, findOrganizerByUser db uid = some org ∧
      st.totalRegistrations = orgBookingCount db org ∧
      st.attendanceRate =
        (if 0 < orgBookingCount db org then
          (orgAttendCount db org : ℚ) / (orgBookingCount db org : ℚ) * 100
        else 0) := by
  have wf := wf_reachable h0 h
  unfold getOrganizerStats at hst
  cases ho : findOrganizerByUser db uid with
  | none => rw [ho] at hst; simp at hst
  | some org =>
    rw [ho] at hst
    simp only [Option.map_some', Option.some.injEq] at hst
    have hle : orgAttendCount db org ≤ orgBookingCount db org :=
      attend_le_book wf (orgEventIds db org)
    have hreg : st.totalRegistrations = orgBookingCount db org := by
      rw [← hst]
      rfl
    have hrate : st.attendanceRate =
        (if 0 < orgBookingCount db org then
          (orgAttendCount db org : ℚ) / (orgBookingCount db org : ℚ) * 100
        else 0) := by
      rw [← hst]
      rfl
    refine ⟨?_, ?_, org, rfl, hreg, hrate⟩
    · rw [hrate]
      by_cases hb : 0 < orgBookingCount db org
      · rw [if_pos hb]
        positivity
      · rw [if_neg hb]
    · rw [hrate]
      by_cases hb : 0 < orgBookingCount db org
      · rw [if_pos hb]
        have h1 : (orgAttendCount db org : ℚ) / (orgBookingCount db org : ℚ) ≤ 1 :=
          div_le_one_of_le₀ (by exact_mod_cast hle) (by positivity)
        calc (orgAttendCount db org : ℚ) / (orgBookingCount db org : ℚ) * 100
            ≤ 1 * 100 := mul_le_mul_of_nonneg_right h1 (by norm_num)
          _ = 100 := one_mul 100
      · rw [if_neg hb]
        norm_num

/-- Witness for C7 at the seeded store itself (reachable by the empty run):
the rate is 0, inside [0, 100]. -/
theorem C7_attendance_rate_formula_and_bounds_witness :
    0 ≤ statsW.attendanceRate ∧ statsW.attendanceRate ≤ 100 ∧
    ∃ org, findOrganizerByUser dbSeeded [7] = some org ∧
      statsW.totalRegistrations = orgBookingCount dbSeeded org ∧
      statsW.attendanceRate =
        (if 0 < orgBookingCount dbSeeded org then
          (orgAttendCount dbSeeded org : ℚ) / (orgBookingCount dbSeeded org : ℚ) * 100
        else 0) :=
  C7_attendance_rate_formula_and_bounds dbSeeded dbSeeded [7] statsW ⟨rfl, rfl, rfl⟩
    Reachable.refl (by decide)

end Collevento
